import Mathlib

/-!
Shallow embedding of the round/game-state engine of the `inz-backend`
repository (Rust), centred on `src/lobby/game.rs`: the end-of-round
submission path (`process_user_round_end_message`), the round transition
(`finish_round`, `new_round`, `finish_game`), the event evaluator
(`process_game_events` and the `evaluate_*` functions), the demand/supply
generator (`generate_demand`) and the broadcast helper
(`send_broadcast_msg` from `src/lobby/lobby.rs`).

Modelling conventions:
* `Uuid` is modelled as `Nat`, with `0` playing the role of `Uuid::nil()`.
* Rust `BTreeMap<Uuid, T>` is modelled as a key-sorted association list
  (`SMap`), so iteration order (ascending keys) matches the source.
* Rust `Vec<T>` is a `List`; `Vec::push` appends at the end and
  `Vec::pop` removes the last element, exactly as in Rust.
* `i64` arithmetic is modelled as `Int`.  None of the embedded paths that
  the claims exercise can overflow at the concrete inputs used, and the
  source does no wrapping arithmetic.
* The world is a single lobby (one `game_id`): the registry entry
  (`Option LobbyState`), and the database state (the lobby row and the
  append-only `game_state` rows).  Broadcast channel delivery and the
  snapshot insert are the two effectful operations that can fail at
  runtime; an `Env` of booleans says whether they succeed, mirroring the
  `Result`s the corresponding `await` sites produce.
* Errors carry the mutated-so-far world (`GRes.err e w`): in the source an
  `Err` return aborts the function but any writes already made to the
  shared registry or the database persist.
-/

namespace Inz

abbrev Uuid := Nat

/-- Key-sorted association list standing in for Rust's `BTreeMap<Uuid, _>`. -/
abbrev SMap (α : Type) := List (Uuid × α)

def SMap.find? {α : Type} : SMap α → Uuid → Option α
  | [], _ => none
  | (k, v) :: rest, k' => if k = k' then some v else SMap.find? rest k'

def SMap.insert {α : Type} : SMap α → Uuid → α → SMap α
  | [], k, v => [(k, v)]
  | (k', v') :: rest, k, v =>
    if k < k' then (k, v) :: (k', v') :: rest
    else if k = k' then (k, v) :: rest
    else (k', v') :: SMap.insert rest k v

def SMap.keys {α : Type} (m : SMap α) : List Uuid := m.map Prod.fst

/-- Rust `Vec::push`: append at the end. -/
def vecPush {α : Type} (l : List α) (x : α) : List α := l ++ [x]

/-- Rust `Vec::pop`: remove and return the last element. -/
def vecPop {α : Type} (l : List α) : Option (α × List α) :=
  match l.getLast? with
  | none => none
  | some x => some (x, l.dropLast)

/-- `entities.rs` `Order` (recipient, sender, value, cost). -/
structure Order where
  recipient : Uuid
  sender : Uuid
  value : Int
  cost : Int
deriving DecidableEq, Repr, Inhabited

/-- `Order::default()`: all fields zero / nil. -/
def Order.default : Order := ⟨0, 0, 0, 0⟩

/-- `entities.rs` `UserState`: one player's ledger. -/
structure UserState where
  user_id : Uuid
  money : Int
  spent_money : Int
  magazine_state : Int
  performance : Int
  back_order_sum : Int
  incoming_orders : List Order
  requested_orders : List Order
  sent_orders : List Order
  placed_order : Order
  received_order : Order
deriving DecidableEq, Repr

/-- `entities.rs` `GeneratedOrderStyle`. -/
inductive GeneratedOrderStyle where
  | Default
  | Linear (start increase : Int)
  | Multiplication (start increase : Int)
  | Exponential (start power modulator : Int)
  | List (list : List Int)
deriving DecidableEq, Repr

/-- The `Settings` fields read by the embedded operations (`game.rs`).  The
remaining fields of `entities.rs`'s `Settings` (transport/back-order/
additional costs, start queues, flags) are not read by any embedded code
path and are omitted. -/
structure Settings where
  max_rounds : Int
  demand_style : GeneratedOrderStyle
  supply_style : GeneratedOrderStyle
  resource_basic_price : Int
  resource_price : SMap Int
  fix_order_cost : SMap Int
  magazine_cost : SMap Int
deriving DecidableEq, Repr

/-- `entities.rs` `Flow`: chain topology, `flow` maps each player to the
next one (the last maps to nil). -/
structure Flow where
  last_player : Uuid
  first_player : Uuid
  flow : SMap Uuid
deriving DecidableEq, Repr

/-- `entities.rs` `Resource`. -/
inductive Resource where
  | Money
  | MagazineState
  | Performance
  | BackOrderValue
deriving DecidableEq, Repr

/-- `entities.rs` `MetBy`, restricted to the three variants the evaluator in
`game.rs` (`evaluate_value_exceed`) matches on. -/
inductive MetBy where
  | SinglePlayer
  | Average
  | AllPlayers
deriving DecidableEq, Repr

/-- `entities.rs` `EventCondition`. -/
inductive EventCondition where
  | RoundMet (round : Int)
  | ValueExceed (resource : Resource) (met_by : MetBy) (value : Int)
  | SingleChange (resource : Resource) (value : Int)
deriving DecidableEq, Repr

/-- `entities.rs` `ActionTarget`. -/
inductive ActionTarget where
  | EventTarget
  | AllPlayers
deriving DecidableEq, Repr

/-- `entities.rs` `EventAction`. -/
inductive EventAction where
  | ShowMessage (message : String) (target : ActionTarget)
  | ChangeSettings (new_settings : Settings)
  | AddResource (resource : Resource) (target : ActionTarget) (value : Int)
deriving DecidableEq, Repr

/-- `entities.rs` `GameEvent` (name kept only as data; `run_once` is stored
but never read by the evaluator, as in the source). -/
structure GameEvent where
  name : String
  condition : EventCondition
  actions : List EventAction
  run_once : Bool
deriving DecidableEq, Repr

/-- The lobby row as read by `get_lobby` on the embedded paths: settings and
the configured events. -/
structure Lobby where
  settings : Settings
  events : List GameEvent
deriving DecidableEq, Repr

/-- One appended `game_state` row (the columns written by the insert in
`finish_round`, for the single modelled lobby). -/
structure GameStateRow where
  round : Int
  user_states : SMap UserState
  round_orders : SMap Order
  send_orders : SMap Order
  players_classes : SMap Nat
  flow : Flow
  demand : Int
  supply : Int
deriving DecidableEq, Repr

/-- `main.rs` `RoundState` (plus the `supply` field that `game.rs` reads and
persists). -/
structure RoundState where
  round : Int
  players : Int
  players_finished : Int
  users_states : SMap UserState
  round_orders : SMap Order
  send_orders : SMap Order
  player_classes : SMap Nat
  settings : Settings
  flow : Flow
  demand : Int
  supply : Int
deriving DecidableEq, Repr

/-- `main.rs` `LobbyState`; the broadcast channel itself is modelled by
`Env.broadcastOk`. -/
structure LobbyState where
  started : Bool
  round_state : RoundState
deriving DecidableEq, Repr

/-- The database: the lobby row and the append-only `game_state` rows. -/
structure DbState where
  lobby : Lobby
  rows : List GameStateRow
deriving DecidableEq, Repr

/-- The full mutable world for one lobby: the registry entry and the db. -/
structure World where
  lobbyState : Option LobbyState
  db : DbState
deriving DecidableEq, Repr

/-- Success/failure of the effectful operations during one call: whether a
broadcast-channel `send` succeeds, whether the snapshot `insert` succeeds,
and whether the settings `update` succeeds. -/
structure Env where
  broadcastOk : Bool
  insertOk : Bool
  updateOk : Bool
deriving DecidableEq, Repr

/-- `error.rs` `AppError`, restricted to the variants the embedded paths
construct. -/
inductive AppError where
  | InternalServerError (msg : String)
  | BadRequest (msg : String)
  | BadOrder (msg : String)
  | DbErr (msg : String)
deriving DecidableEq, Repr

/-- Result of one engine operation: the world after all writes that
actually happened, with or without a propagated error. -/
inductive GRes where
  | ok (w : World)
  | err (e : AppError) (w : World)
deriving DecidableEq, Repr

/-- Rust's `Iterator::position`: index of the first element satisfying the
predicate. -/
def position {α : Type} (p : α → Bool) : List α → Option Nat
  | [] => none
  | x :: xs => if p x then some 0 else (position p xs).map (· + 1)

/-- `game.rs` lines 948-974, `generate_demand(last_demand, demand_style)`.
The `Default` branch computes `(last_demand as f64 * 1.5) as i64` in the
source; `(last_demand * 3).tdiv 2` (truncation toward zero) agrees with it
wherever `3 * last_demand` is exactly representable in `f64`, and no claim
exercises that branch.  Likewise the `Exponential` branch multiplies by the
`f64` value `E.powi(power)` cast to `i64`; the cast exponential is modelled
by `f64_e_powi_trunc`, whose concrete values no theorem below depends on.
The `List` branch is the source verbatim: the index of `last_demand` if
found (else `len - 1`), and the element *at* that index (else
`last_demand`). -/
def f64_e_powi_trunc (power : Int) : Int :=
  if power = 0 then 1 else if power < 0 then 0 else 2 ^ power.toNat

def generate_demand (last_demand : Int) (demand_style : GeneratedOrderStyle) : Int :=
  match demand_style with
  | .Default => (last_demand * 3).tdiv 2
  | .Linear _ increase => last_demand + increase
  | .Multiplication _ increase => last_demand * increase
  | .Exponential _ power modulator => last_demand * (modulator * f64_e_powi_trunc power)
  | .List demand =>
    let index := match position (fun r => r == last_demand) demand with
      | some i => i
      | none => demand.length - 1
    match demand.get? index with
    | some d => d
    | none => last_demand

/-- Taken from the spec's words (§4.1), not from the source: `order_cost`
returns 0 when the value is 0 and `value * unit_price + fixed_cost`
otherwise.  The source has no such function; the submission path computes
the send-order cost inline at `game.rs` line 177 with no zero case.
Declared only to be compared against the embedded cost computation. -/
def order_cost_spec (value unit_price fixed_cost : Int) : Int :=
  if value = 0 then 0 else value * unit_price + fixed_cost

/-- `game.rs` lines 154-175: the backorder-settlement block inside
`process_user_round_end_message`, extracted as the pure function of
`(magazine_state, back_order_sum, requested.value)` it is.  Returns
`(send_order_val, new_magazine_state, new_back_order_sum)`. -/
def backorder_settlement (magazine_state back_order_sum requested_value : Int) :
    Int × Int × Int :=
  let (send1, mag1, back1) :=
    if back_order_sum > magazine_state then
      (magazine_state, 0, back_order_sum - magazine_state)
    else if back_order_sum > 0 then
      (back_order_sum, magazine_state - back_order_sum, 0)
    else
      (0, magazine_state, back_order_sum)
  if mag1 > requested_value then
    (send1 + requested_value, mag1 - requested_value, back1)
  else
    let diff := requested_value - mag1
    (send1 + diff, 0, back1 + diff)

/-- `game.rs` lines 437-448, `evaluate_round_cond`. -/
def evaluate_round_cond (round_state : RoundState) (round : Int) : Bool × List Uuid :=
  let players_id : List Uuid :=
    if round_state.round = round then SMap.keys round_state.users_states else []
  (players_id.length != 0, players_id)

/-- The `MetBy::AllPlayers` loop of `evaluate_value_exceed` (`game.rs` lines
475-486): walk the player map in order, pushing each player that meets the
threshold, stopping with `false` at the first that does not. -/
def all_players_loop (extractor : UserState → Int) (value : Int) :
    List (Uuid × UserState) → List Uuid → Bool × List Uuid
  | [], recipients => (true, recipients)
  | (u_id, user_state) :: rest, recipients =>
    if extractor user_state < value then (false, recipients)
    else all_players_loop extractor value rest (vecPush recipients u_id)

/-- `game.rs` lines 451-489, `evaluate_value_exceed`.  The `Average` branch
divides with Rust `i64` division (truncation toward zero, `Int.div`). -/
def evaluate_value_exceed (extractor : UserState → Int) (met_by : MetBy)
    (round_state : RoundState) (value : Int) : Bool × List Uuid :=
  match met_by with
  | .SinglePlayer =>
    let recipients := (round_state.users_states.filter
      (fun p => decide (extractor p.2 > value))).map Prod.fst
    (recipients.length != 0, recipients)
  | .Average =>
    let sum := (round_state.users_states.map (fun p => extractor p.2)).sum
    let recipients := SMap.keys round_state.users_states
    (decide ((sum.tdiv (round_state.users_states.length : Int)) > value), recipients)
  | .AllPlayers => all_players_loop extractor value round_state.users_states []

/-- `game.rs` lines 491-511, `evaluate_single_change`: a player is a
recipient when it appears in the prior round's persisted states (players
absent there are skipped) and the absolute change of the extracted field
exceeds `value`. -/
def evaluate_single_change (extractor : UserState → Int) (round_state : RoundState)
    (last_state : GameStateRow) (value : Int) : Bool × List Uuid :=
  let recipients := (round_state.users_states.filter (fun p =>
    match SMap.find? last_state.user_states p.1 with
    | some last_user_state => decide (|extractor p.2 - extractor last_user_state| > value)
    | none => false)).map Prod.fst
  (recipients.length != 0, recipients)

/-- The `Resource`-keyed field accessor used at `game.rs` lines 392-402 and
418-431. -/
def resource_extractor : Resource → UserState → Int
  | .Money => fun us => us.money
  | .MagazineState => fun us => us.magazine_state
  | .Performance => fun us => us.performance
  | .BackOrderValue => fun us => us.back_order_sum

/-- Modelled from the spec: `Flow::get_sender` is called in the source
(`game.rs` lines 129 and 759) but its implementation is not under `src/`.
Spec §3: the flow map holds the sender→recipient links of the chain and
external supply enters at `first_player` from the nil sentinel, so the
sender of player `p` is the `q` with `flow[q] = p`, and the nil sentinel
when no such `q` exists. -/
def Flow.get_sender (f : Flow) (p : Uuid) : Uuid :=
  match List.find? (fun pr => pr.2 == p) f.flow with
  | some pr => pr.1
  | none => 0

/-- Modelled from the spec: `Flow::get_recipient` is called at `game.rs`
line 180 but its implementation is not under `src/`.  Spec §3/§4.2: the
recipient of `p` is `flow[p]`; a missing entry is an internal-consistency
failure. -/
def Flow.get_recipient (f : Flow) (p : Uuid) : Except AppError Uuid :=
  match SMap.find? f.flow p with
  | some r => Except.ok r
  | none => Except.error (.InternalServerError "no player recipient found")

/-- `game.rs` `GameUpdate`: the round-start / game-start broadcast payload. -/
structure GameUpdate where
  player_states : SMap UserState
  round : Int
  flow : Flow
  settings : Settings
  round_orders : SMap Order
  send_orders : SMap Order
  player_classes : SMap Nat
deriving DecidableEq, Repr

/-- `game.rs` `GameEnd`: the game-end broadcast payload; `stats` mirrors the
`HashMap<String, HashMap<Uuid, Vec<i64>>>` of `get_player_stats` as an
association list. -/
structure GameEndMsg where
  player_states : SMap UserState
  stats : List (String × SMap (List Int))
deriving DecidableEq, Repr

/-- `websockets.rs` `EventMessages`, restricted to the constructors the
embedded operations broadcast. -/
inductive EventMessages where
  | GameStart (u : GameUpdate)
  | GameEventSettingsChange (s : Settings)
  | GameEventPopUpUser (u : Uuid) (message : String)
  | GameEventPopUpAll (message : String)
  | GameEventResourceAddedAll (r : Resource) (value : Int)
  | GameEventResourceAddedUser (u : Uuid) (r : Resource) (value : Int)
  | RoundStart (u : GameUpdate)
  | RoundEnd
  | GameEnd (g : GameEndMsg)
  | Ack (u : Uuid)
deriving Repr

/-- `lobby.rs` lines 353-373, `send_broadcast_msg`: look the lobby up in the
registry (read lock) and `send` on its broadcast channel; a send failure is
mapped to `InternalServerError` and returned as an error. -/
def send_broadcast_msg (env : Env) (w : World) (_msg : EventMessages) :
    Except AppError Unit :=
  match w.lobbyState with
  | some _ =>
    if env.broadcastOk then Except.ok ()
    else Except.error (.InternalServerError "channel send failed")
  | none => Except.error (.InternalServerError "Looby not found")

/-- `stats.rs` `UserStatsType`. -/
inductive UserStatsType where
  | Money
  | Performance
  | MagazineState
  | PlacedOrder
  | ReceivedOrder
  | BackOrder
  | SpentMoney
deriving DecidableEq, Repr

/-- Insert-or-replace into a `String`-keyed association list (standing in
for the `HashMap<String, _>` of `stats.rs`; hash iteration order is not
observable through any embedded result). -/
def strInsert {α : Type} : List (String × α) → String → α → List (String × α)
  | [], k, v => [(k, v)]
  | (k', v') :: rest, k, v =>
    if k = k' then (k, v) :: rest else (k', v') :: strInsert rest k v

/-- The per-user accumulation step of `get_stats_for_type` (`stats.rs` lines
133-139): append to the user's series, creating it on first sight. -/
def append_stat (m : SMap (List Int)) (u : Uuid) (v : Int) : SMap (List Int) :=
  match SMap.find? m u with
  | some data => SMap.insert m u (vecPush data v)
  | none => SMap.insert m u [v]

/-- `stats.rs` lines 125-142, `get_stats_for_type`: walk the persisted rows
in round order, extending every player's series. -/
def get_stats_for_type (extractor : UserState → Int) (stat_name : String)
    (games_states : List GameStateRow) (stats : List (String × SMap (List Int))) :
    List (String × SMap (List Int)) :=
  let type_stats := games_states.foldl (fun acc row =>
    row.user_states.foldl (fun acc2 p => append_stat acc2 p.1 (extractor p.2)) acc) []
  strInsert stats stat_name type_stats

/-- `stats.rs` lines 67-123, `get_player_stats`, over the already-fetched
rows (the embedded world appends rows in round order, so the query's
`order by round` is the identity on them). -/
def get_player_stats (rows : List GameStateRow) (stats_types : List UserStatsType) :
    List (String × SMap (List Int)) :=
  stats_types.foldl (fun stats t =>
    match t with
    | .Money => get_stats_for_type (fun u => u.money) "money" rows stats
    | .Performance => get_stats_for_type (fun u => u.performance) "performance" rows stats
    | .MagazineState => get_stats_for_type (fun u => u.magazine_state) "magazine_state" rows stats
    | .PlacedOrder => get_stats_for_type (fun u => u.placed_order.cost) "placed_order" rows stats
    | .ReceivedOrder => get_stats_for_type (fun u => u.received_order.cost) "received_order" rows stats
    | .BackOrder => get_stats_for_type (fun u => u.back_order_sum) "back_order" rows stats
    | .SpentMoney => get_stats_for_type (fun u => u.spent_money) "spent_money" rows stats) []

/-- The `ActionTarget::EventTarget` arm of `execute_pop_up_action`
(`game.rs` lines 359-368): one individually addressed broadcast per target,
stopping at the first send failure. -/
def pop_up_loop (env : Env) (w : World) (message : String) :
    List Uuid → Except AppError Unit
  | [] => Except.ok ()
  | player_id :: rest =>
    match send_broadcast_msg env w (.GameEventPopUpUser player_id message) with
    | Except.ok _ => pop_up_loop env w message rest
    | Except.error e => Except.error e

/-- `game.rs` lines 351-378, `execute_pop_up_action`. -/
def execute_pop_up_action (env : Env) (target : ActionTarget)
    (players_targets : List Uuid) (w : World) (message : String) :
    Except AppError Unit :=
  match target with
  | .EventTarget => pop_up_loop env w message players_targets
  | .AllPlayers => send_broadcast_msg env w (.GameEventPopUpAll message)

/-- `game.rs` lines 324-349, `execute_settings_change`: persist the new
settings to the lobby row, overwrite the live settings, broadcast. -/
def execute_settings_change (env : Env) (round_state : RoundState)
    (new_settings : Settings) (w : World) :
    Except (AppError × World) (RoundState × World) :=
  if env.updateOk then
    let w1 : World :=
      { w with db := { w.db with lobby := { w.db.lobby with settings := new_settings } } }
    let rs1 := { round_state with settings := new_settings }
    match send_broadcast_msg env w1 (.GameEventSettingsChange new_settings) with
    | Except.ok _ => Except.ok (rs1, w1)
    | Except.error e => Except.error (e, w1)
  else Except.error (.DbErr "settings update failed", w)

/-- The field update of `execute_resource_action`'s `match resource` arms. -/
def add_resource (resource : Resource) (value : Int) (us : UserState) : UserState :=
  match resource with
  | .Money => { us with money := us.money + value }
  | .MagazineState => { us with magazine_state := us.magazine_state + value }
  | .Performance => { us with performance := us.performance + value }
  | .BackOrderValue => { us with back_order_sum := us.back_order_sum + value }

/-- The `ActionTarget::EventTarget` arm of `execute_resource_action`
(`game.rs` lines 281-304): mutate each target's ledger and broadcast per
target. -/
def resource_target_loop (env : Env) (resource : Resource) (value : Int) (w : World) :
    List Uuid → RoundState → Except (AppError × World) RoundState
  | [], rs => Except.ok rs
  | u_id :: rest, rs =>
    match SMap.find? rs.users_states u_id with
    | none => Except.error ((.InternalServerError "expected user state"), w)
    | some player_state =>
      let us' := SMap.insert rs.users_states u_id (add_resource resource value player_state)
      let rs1 := { rs with users_states := us' }
      match send_broadcast_msg env w (.GameEventResourceAddedUser u_id resource value) with
      | Except.ok _ => resource_target_loop env resource value w rest rs1
      | Except.error e => Except.error (e, w)

/-- `game.rs` lines 271-322, `execute_resource_action`. -/
def execute_resource_action (env : Env) (target : ActionTarget)
    (players_targets : List Uuid) (resource : Resource) (value : Int)
    (round_state : RoundState) (w : World) :
    Except (AppError × World) RoundState :=
  match target with
  | .EventTarget => resource_target_loop env resource value w players_targets round_state
  | .AllPlayers =>
    let us' := round_state.users_states.map (fun p => (p.1, add_resource resource value p.2))
    let rs1 := { round_state with users_states := us' }
    match send_broadcast_msg env w (.GameEventResourceAddedAll resource value) with
    | Except.ok _ => Except.ok rs1
    | Except.error e => Except.error (e, w)

/-- `game.rs` lines 380-435, `evaluate_cond`.  The `SingleChange` arm
fetches the persisted row of `round - 1`; `fetch_one` fails when no such
row exists. -/
def evaluate_cond (event : GameEvent) (round_state : RoundState) (w : World) :
    Except (AppError × World) (Bool × List Uuid) :=
  match event.condition with
  | .RoundMet round => Except.ok (evaluate_round_cond round_state round)
  | .ValueExceed resource met_by value =>
    Except.ok (evaluate_value_exceed (resource_extractor resource) met_by round_state value)
  | .SingleChange resource value =>
    match List.find? (fun row => row.round == round_state.round - 1) w.db.rows with
    | some last_state =>
      Except.ok (evaluate_single_change (resource_extractor resource) round_state last_state value)
    | none => Except.error ((.DbErr "no row for previous round"), w)

/-- The action loop of `process_game_events` (`game.rs` lines 240-265). -/
def run_actions (env : Env) (targets : List Uuid) :
    List EventAction → RoundState → World → Except (AppError × World) (RoundState × World)
  | [], rs, w => Except.ok (rs, w)
  | action :: rest, rs, w =>
    match action with
    | .ShowMessage message target =>
      match execute_pop_up_action env target targets w message with
      | Except.ok _ => run_actions env targets rest rs w
      | Except.error e => Except.error (e, w)
    | .ChangeSettings new_settings =>
      match execute_settings_change env rs new_settings w with
      | Except.ok (rs1, w1) => run_actions env targets rest rs1 w1
      | Except.error ew => Except.error ew
    | .AddResource resource target value =>
      match execute_resource_action env target targets resource value rs w with
      | Except.ok rs1 => run_actions env targets rest rs1 w
      | Except.error ew => Except.error ew

/-- The event loop of `process_game_events` (`game.rs` lines 232-266). -/
def events_loop (env : Env) :
    List GameEvent → RoundState → World → Except (AppError × World) (RoundState × World)
  | [], rs, w => Except.ok (rs, w)
  | event :: rest, rs, w =>
    match evaluate_cond event rs w with
    | Except.error ew => Except.error ew
    | Except.ok (cond_met, targets) =>
      if cond_met then
        match run_actions env targets event.actions rs w with
        | Except.ok (rs1, w1) => events_loop env rest rs1 w1
        | Except.error ew => Except.error ew
      else events_loop env rest rs w

/-- `game.rs` lines 224-269, `process_game_events`: `get_lobby` reads the
lobby row, then the configured events run in stored order against the live
state. -/
def process_game_events (env : Env) (round_state : RoundState) (w : World) :
    Except (AppError × World) (RoundState × World) :=
  events_loop env w.db.lobby.events round_state w

/-- `game.rs` lines 687-710, `finish_game`: aggregate the persisted rows
into statistics and broadcast the game-end message; no round-state
mutation. -/
def finish_game (env : Env) (round_state : RoundState) (w : World) : GRes :=
  let stats := get_player_stats w.db.rows
    [.Money, .MagazineState, .BackOrder, .PlacedOrder, .ReceivedOrder, .SpentMoney]
  let msg : GameEndMsg := { player_states := round_state.users_states, stats := stats }
  match send_broadcast_msg env w (.GameEnd msg) with
  | Except.ok _ => GRes.ok w
  | Except.error e => GRes.err e w

/-- `game.rs` lines 646-685, `new_round`: run the events, reset the
finished-player counter, clear both order maps, write the registry and
broadcast the round-start snapshot (built from the maps as they were
before clearing). -/
def new_round (env : Env) (round_state : RoundState) (w : World) : GRes :=
  match process_game_events env round_state w with
  | Except.error (e, w1) => GRes.err e w1
  | Except.ok (rs1, w1) =>
    let send_orders := rs1.send_orders
    let round_orders := rs1.round_orders
    let rs2 := { rs1 with players_finished := 0, round_orders := [], send_orders := [] }
    match w1.lobbyState with
    | some lobby_state =>
      let w2 := { w1 with lobbyState := some { lobby_state with round_state := rs2 } }
      let msg : GameUpdate :=
        { player_states := rs2.users_states, round := rs2.round, flow := rs2.flow,
          settings := rs2.settings, round_orders := round_orders,
          send_orders := send_orders, player_classes := rs2.player_classes }
      match send_broadcast_msg env w2 (.RoundStart msg) with
      | Except.ok _ => GRes.ok w2
      | Except.error e => GRes.err e w2
    | none => GRes.err (.InternalServerError "expected a lobby state") w1

/-- The first folding loop of `finish_round` (`game.rs` lines 562-581):
every round order with a non-nil sender is pushed onto the *sender*'s
requested-order queue. -/
def push_requested_loop : List (Uuid × Order) → SMap UserState → Except AppError (SMap UserState)
  | [], us => Except.ok us
  | (_, order) :: rest, us =>
    if order.sender = 0 then push_requested_loop rest us
    else match SMap.find? us order.sender with
      | some u => push_requested_loop rest (SMap.insert us order.sender
          { u with requested_orders := vecPush u.requested_orders order })
      | none => Except.error (.InternalServerError "not found placed recipient for order")

/-- The second folding loop of `finish_round` (`game.rs` lines 583-598):
every sent order with a non-nil recipient is pushed onto the *recipient*'s
incoming-order queue. -/
def push_incoming_loop : List (Uuid × Order) → SMap UserState → Except AppError (SMap UserState)
  | [], us => Except.ok us
  | (_, order) :: rest, us =>
    if order.recipient = 0 then push_incoming_loop rest us
    else match SMap.find? us order.recipient with
      | some u => push_incoming_loop rest (SMap.insert us order.recipient
          { u with incoming_orders := vecPush u.incoming_orders order })
      | none => Except.error (.InternalServerError "not found sent recipient for order")

/-- `game.rs` lines 513-644, `finish_round`: broadcast the round-end
marker, synthesize the demand and supply orders, fold both order maps into
the per-player queues, advance the round counter and the stored demand,
write the registry, insert the snapshot row, then `get_lobby` and branch
into game-finish or new-round on `max_rounds`.  Note the order of effects:
the registry write precedes the snapshot insert. -/
def finish_round (env : Env) (game_rs : RoundState) (w : World) : GRes :=
  match send_broadcast_msg env w .RoundEnd with
  | Except.error e => GRes.err e w
  | Except.ok _ =>
    let next_demand := generate_demand game_rs.demand game_rs.settings.demand_style
    let next_demand_cost := game_rs.settings.resource_basic_price * next_demand
    let generated_order : Order :=
      { recipient := 0, sender := game_rs.flow.last_player,
        value := next_demand, cost := next_demand_cost }
    let rs1 := { game_rs with
      round_orders := SMap.insert game_rs.round_orders 0 generated_order }
    match SMap.find? rs1.round_orders rs1.flow.first_player with
    | none => GRes.err (.InternalServerError "not found fist player order") w
    | some first_order =>
      let next_supply := generate_demand rs1.supply rs1.settings.supply_style
      let generated_order_supply : Order :=
        if next_supply < first_order.value then
          { recipient := rs1.flow.first_player, sender := 0, value := next_supply,
            cost := rs1.settings.resource_basic_price * next_supply }
        else first_order
      let rs2 := { rs1 with
        send_orders := SMap.insert rs1.send_orders 0 generated_order_supply }
      match push_requested_loop rs2.round_orders rs2.users_states with
      | Except.error e => GRes.err e w
      | Except.ok us1 =>
        let rs3 := { rs2 with users_states := us1 }
        match push_incoming_loop rs3.send_orders rs3.users_states with
        | Except.error e => GRes.err e w
        | Except.ok us2 =>
          let rs4 := { rs3 with
            users_states := us2, round := rs3.round + 1, demand := next_demand }
          match w.lobbyState with
          | none => GRes.err (.InternalServerError "expected a lobby state") w
          | some lobby_state =>
            let w1 := { w with lobbyState := some { lobby_state with round_state := rs4 } }
            if env.insertOk then
              let row : GameStateRow :=
                { round := rs4.round, user_states := rs4.users_states,
                  round_orders := rs4.round_orders, send_orders := rs4.send_orders,
                  players_classes := rs4.player_classes, flow := rs4.flow,
                  demand := rs4.demand, supply := rs4.supply }
              let w2 := { w1 with db := { w1.db with rows := w1.db.rows ++ [row] } }
              if rs4.round = w2.db.lobby.settings.max_rounds then finish_game env rs4 w2
              else new_round env rs4 w2
            else GRes.err (.DbErr "insert failed") w1

/-- `game.rs` `UserEndRound`: the submitted message. -/
structure UserEndRound where
  placed_order : Order
deriving DecidableEq, Repr

/-- `game.rs` lines 48-221, `process_user_round_end_message`: the
end-of-round submission of one player.  All mutations happen on a clone of
the registry's round state; the registry is only written after the whole
submission succeeded (and again inside the nested round-finish cascade). -/
def process_user_round_end_message (env : Env) (player : Uuid) (msg : UserEndRound)
    (w : World) : GRes :=
  match w.lobbyState with
  | none => GRes.err (.InternalServerError "expected a lobby state") w
  | some lb =>
    let round_state := lb.round_state
    match SMap.find? round_state.player_classes player with
    | none => GRes.err (.BadRequest "class for player not found") w
    | some player_class =>
      match SMap.find? round_state.settings.resource_price player_class with
      | none => GRes.err (.BadRequest "player-resource price not found") w
      | some resource_price =>
        match SMap.find? round_state.settings.fix_order_cost player_class with
        | none => GRes.err (.BadRequest "player-fix_order_cost not found") w
        | some fix_order_cost =>
          match SMap.find? round_state.settings.magazine_cost player_class with
          | none => GRes.err (.BadRequest "player-magazine_cost not found") w
          | some magazine_cost =>
            match SMap.find? round_state.users_states player with
            | none => GRes.err (.InternalServerError "expected a user state") w
            | some user_state =>
              if msg.placed_order.cost > user_state.money then
                GRes.err (.BadOrder "not enough money for placed order") w
              else
                match send_broadcast_msg env w (.Ack player) with
                | Except.error e => GRes.err e w
                | Except.ok _ =>
                  let placed := { msg.placed_order with
                    recipient := player,
                    sender := Flow.get_sender round_state.flow player }
                  let us1 := { user_state with
                    money := user_state.money - placed.cost,
                    spent_money := user_state.spent_money + placed.cost,
                    placed_order := placed }
                  let mag_hold_cost := us1.magazine_state * magazine_cost
                  let us2 := { us1 with
                    money := us1.money - mag_hold_cost,
                    spent_money := us1.spent_money + mag_hold_cost }
                  let rs1 := { round_state with
                    round_orders := SMap.insert round_state.round_orders player placed }
                  match vecPop us2.incoming_orders with
                  | none => GRes.err (.InternalServerError "expected a incoming order") w
                  | some (io, rest_incoming) =>
                    let us3 := { us2 with
                      incoming_orders := rest_incoming,
                      magazine_state := us2.magazine_state + io.value,
                      received_order := io }
                    match vecPop us3.requested_orders with
                    | none => GRes.err (.InternalServerError "expected a incoming order") w
                    | some (ro, rest_requested) =>
                      let res := backorder_settlement us3.magazine_state us3.back_order_sum ro.value
                      let send_order_val := res.1
                      let send_order_val_cost := send_order_val * resource_price + fix_order_cost
                      match Flow.get_recipient rs1.flow player with
                      | Except.error e => GRes.err e w
                      | Except.ok recipient =>
                        let send_order : Order := {
                          recipient := recipient, sender := player,
                          value := send_order_val, cost := send_order_val_cost }
                        let us4 := { us3 with
                          magazine_state := res.2.1,
                          back_order_sum := res.2.2,
                          requested_orders := rest_requested,
                          sent_orders := vecPush us3.sent_orders send_order }
                        let rs2 := { rs1 with
                          users_states := SMap.insert rs1.users_states player us4,
                          send_orders := SMap.insert rs1.send_orders player send_order }
                        let rs3 := { rs2 with players_finished := rs2.players_finished + 1 }
                        match w.lobbyState with
                        | none => GRes.err (.InternalServerError "expected a lobby state") w
                        | some lobby_state =>
                          let lbs1 := { lobby_state with round_state := rs3 }
                          let w1 := { w with lobbyState := some lbs1 }
                          if rs3.players_finished = rs3.players then
                            finish_round env rs3 w1
                          else GRes.ok w1

/-- The world an operation left behind, whether it succeeded or failed. -/
def GRes.world : GRes → World
  | .ok w => w
  | .err _ w => w

/-- Did the operation succeed? -/
def GRes.isOk : GRes → Bool
  | .ok _ => true
  | .err _ _ => false

/-- Did the operation fail with a database error? -/
def GRes.isDbErr : GRes → Bool
  | .err (.DbErr _) _ => true
  | _ => false

/-- The live round state held in the lobby registry, when the entry exists. -/
def registryState (w : World) : Option RoundState :=
  w.lobbyState.map LobbyState.round_state

/-- The round state `process_user_round_end_message` commits to the registry
after a successful submission: the derived post-state, assembled from the
same mutations the source performs, given the values its lookups returned
(`price`/`fix`/`mcost` for the player's class, `us` the player's prior
ledger with queues `ios ++ [io]` and `ros ++ [ro]`, `recip` the flow
recipient). -/
def submissionResultState (lb : LobbyState) (player : Uuid) (msg : UserEndRound)
    (price fix mcost : Int) (us : UserState) (ios : List Order) (io : Order)
    (ros : List Order) (ro : Order) (recip : Uuid) : RoundState :=
  let placed : Order := { msg.placed_order with
    recipient := player,
    sender := Flow.get_sender lb.round_state.flow player }
  let res := backorder_settlement (us.magazine_state + io.value) us.back_order_sum ro.value
  let send_order : Order :=
    { recipient := recip, sender := player, value := res.1, cost := res.1 * price + fix }
  let us4 : UserState := { us with
    money := us.money - msg.placed_order.cost - us.magazine_state * mcost,
    spent_money := us.spent_money + msg.placed_order.cost + us.magazine_state * mcost,
    magazine_state := res.2.1,
    back_order_sum := res.2.2,
    incoming_orders := ios,
    requested_orders := ros,
    sent_orders := vecPush us.sent_orders send_order,
    placed_order := placed,
    received_order := io }
  { lb.round_state with
    users_states := SMap.insert lb.round_state.users_states player us4,
    round_orders := SMap.insert lb.round_state.round_orders player placed,
    send_orders := SMap.insert lb.round_state.send_orders player send_order,
    players_finished := lb.round_state.players_finished + 1 }

/-! Concrete sample data used to evaluate the embedded operations at
specific inputs: a one-player lobby (`worldA`), a two-player lobby in which
only the first player submits (`worldB` and variants), and environments in
which every effect succeeds, the snapshot insert fails, or the broadcast
channel fails. -/

def envAll : Env := ⟨true, true, true⟩

def envNoInsert : Env := ⟨true, false, true⟩

def envNoBroadcast : Env := ⟨false, true, true⟩

def ioA : Order := ⟨1, 0, 4, 8⟩

def ioB : Order := ⟨1, 0, 9, 18⟩

def roA : Order := ⟨0, 1, 3, 6⟩

def roB : Order := ⟨0, 1, 5, 10⟩

def settingsA : Settings :=
  ⟨100, .Linear 5 1, .Linear 5 1, 2, [(0, 3)], [(0, 7)], [(0, 1)]⟩

def usA : UserState := ⟨1, 100, 0, 10, 0, 0, [ioA], [roA], [], Order.default, Order.default⟩

def flowA : Flow := ⟨1, 1, [(1, 0)]⟩

def rsA : RoundState := ⟨0, 1, 0, [(1, usA)], [], [], [(1, 0)], settingsA, flowA, 5, 5⟩

def lobbyA : Lobby := ⟨settingsA, []⟩

def worldA : World := ⟨some ⟨true, rsA⟩, ⟨lobbyA, []⟩⟩

def msgA : UserEndRound := ⟨⟨0, 0, 2, 13⟩⟩

def msgPoor : UserEndRound := ⟨⟨0, 0, 2, 101⟩⟩

def usB1 : UserState :=
  ⟨1, 100, 0, 10, 0, 0, [ioA, ioB], [roA, roB], [], Order.default, Order.default⟩

def usB2 : UserState := ⟨2, 100, 0, 10, 0, 0, [ioA], [roA], [], Order.default, Order.default⟩

def flowB : Flow := ⟨2, 1, [(1, 2), (2, 0)]⟩

def rsB : RoundState :=
  ⟨0, 2, 0, [(1, usB1), (2, usB2)], [], [], [(1, 0), (2, 0)], settingsA, flowB, 5, 5⟩

def worldB : World := ⟨some ⟨true, rsB⟩, ⟨lobbyA, []⟩⟩

def usC : UserState :=
  ⟨1, 100, 0, 5, 0, 0, [⟨1, 0, 0, 0⟩], [⟨0, 1, 5, 10⟩], [], Order.default, Order.default⟩

def rsC : RoundState := ⟨0, 2, 0, [(1, usC)], [], [], [(1, 0)], settingsA, flowA, 5, 5⟩

def worldC : World := ⟨some ⟨true, rsC⟩, ⟨lobbyA, []⟩⟩

def usD : UserState := ⟨1, 20, 0, 10, 0, 0, [ioA], [roA], [], Order.default, Order.default⟩

def rsD : RoundState := ⟨0, 2, 0, [(1, usD)], [], [], [(1, 0)], settingsA, flowA, 5, 5⟩

def worldD : World := ⟨some ⟨true, rsD⟩, ⟨lobbyA, []⟩⟩

def moneyUser (u : Uuid) (m : Int) : UserState :=
  ⟨u, m, 0, 0, 0, 0, [], [], [], Order.default, Order.default⟩

def rsNineLow : RoundState :=
  ⟨0, 3, 0, [(1, moneyUser 1 100), (2, moneyUser 2 100), (3, moneyUser 3 50)], [], [],
   [(1, 0), (2, 0), (3, 0)], settingsA, flowA, 5, 5⟩

def rsNineHigh : RoundState :=
  ⟨0, 3, 0, [(1, moneyUser 1 100), (2, moneyUser 2 100), (3, moneyUser 3 100)], [], [],
   [(1, 0), (2, 0), (3, 0)], settingsA, flowA, 5, 5⟩

def rsFin : RoundState := { rsA with round_orders := [(1, ⟨1, 0, 2, 13⟩)] }

end Inz

namespace Inz

theorem SMap.find?_insert_self {α : Type} (m : SMap α) (k : Uuid) (v : α) :
    SMap.find? (SMap.insert m k v) k = some v := by
  induction m with
  | nil => simp [SMap.insert, SMap.find?]
  | cons hd tl ih =>
    obtain ⟨k', v'⟩ := hd
    by_cases h1 : k < k'
    · simp [SMap.insert, h1, SMap.find?]
    · by_cases h2 : k = k'
      · simp [SMap.insert, h1, h2, SMap.find?]
      · simp only [SMap.insert, if_neg h1, if_neg h2, SMap.find?]
        rw [if_neg (fun h => h2 h.symm)]
        exact ih

theorem vecPop_concat {α : Type} (l : List α) (x : α) :
    vecPop (l ++ [x]) = some (x, l) := by
  simp [vecPop, List.getLast?_concat, List.dropLast_concat]

/-- On the happy path of a submission that does not complete the round, the
operation succeeds and commits exactly the derived post-state to the
registry. -/
theorem process_ok_of_happy
    (env : Env) (player : Uuid) (msg : UserEndRound) (w : World) (lb : LobbyState)
    (cls : Nat) (price fix mcost : Int) (us : UserState)
    (ios : List Order) (io : Order) (ros : List Order) (ro : Order) (recip : Uuid)
    (hlb : w.lobbyState = some lb)
    (hcls : SMap.find? lb.round_state.player_classes player = some cls)
    (hprice : SMap.find? lb.round_state.settings.resource_price cls = some price)
    (hfix : SMap.find? lb.round_state.settings.fix_order_cost cls = some fix)
    (hmcost : SMap.find? lb.round_state.settings.magazine_cost cls = some mcost)
    (hus : SMap.find? lb.round_state.users_states player = some us)
    (hmoney : ¬ msg.placed_order.cost > us.money)
    (hbc : env.broadcastOk = true)
    (hio : us.incoming_orders = ios ++ [io])
    (hro : us.requested_orders = ros ++ [ro])
    (hrecip : SMap.find? lb.round_state.flow.flow player = some recip)
    (hnf : ¬ (lb.round_state.players_finished + 1 = lb.round_state.players)) :
    process_user_round_end_message env player msg w =
      GRes.ok ⟨some ⟨lb.started,
        submissionResultState lb player msg price fix mcost us ios io ros ro recip⟩, w.db⟩ := by
  simp only [process_user_round_end_message, hlb, hcls, hprice, hfix, hmcost, hus,
    send_broadcast_msg, hbc, if_neg hmoney, hio, hro, vecPop_concat,
    Flow.get_recipient, hrecip, submissionResultState]
  simp only [if_true]
  rw [if_neg]
  exact hnf

/-- On the happy path of the round's last submission, the operation reduces
to `finish_round` on the derived post-state, already committed to the
registry. -/
theorem process_last_of_happy
    (env : Env) (player : Uuid) (msg : UserEndRound) (w : World) (lb : LobbyState)
    (cls : Nat) (price fix mcost : Int) (us : UserState)
    (ios : List Order) (io : Order) (ros : List Order) (ro : Order) (recip : Uuid)
    (hlb : w.lobbyState = some lb)
    (hcls : SMap.find? lb.round_state.player_classes player = some cls)
    (hprice : SMap.find? lb.round_state.settings.resource_price cls = some price)
    (hfix : SMap.find? lb.round_state.settings.fix_order_cost cls = some fix)
    (hmcost : SMap.find? lb.round_state.settings.magazine_cost cls = some mcost)
    (hus : SMap.find? lb.round_state.users_states player = some us)
    (hmoney : ¬ msg.placed_order.cost > us.money)
    (hbc : env.broadcastOk = true)
    (hio : us.incoming_orders = ios ++ [io])
    (hro : us.requested_orders = ros ++ [ro])
    (hrecip : SMap.find? lb.round_state.flow.flow player = some recip)
    (hlast : lb.round_state.players_finished + 1 = lb.round_state.players) :
    process_user_round_end_message env player msg w =
      finish_round env
        (submissionResultState lb player msg price fix mcost us ios io ros ro recip)
        ⟨some ⟨lb.started,
          submissionResultState lb player msg price fix mcost us ios io ros ro recip⟩, w.db⟩ := by
  simp only [process_user_round_end_message, hlb, hcls, hprice, hfix, hmcost, hus,
    send_broadcast_msg, hbc, if_neg hmoney, hio, hro, vecPop_concat,
    Flow.get_recipient, hrecip, submissionResultState]
  simp only [if_true]
  rw [if_pos]
  exact hlast

theorem resource_target_loop_round (env : Env) (resource : Resource) (value : Int)
    (w : World) (ts : List Uuid) (rs rs' : RoundState)
    (h : resource_target_loop env resource value w ts rs = Except.ok rs') :
    rs'.round = rs.round ∧ rs'.players_finished = rs.players_finished := by
  induction ts generalizing rs with
  | nil =>
    simp [resource_target_loop] at h
    subst h
    exact ⟨rfl, rfl⟩
  | cons u rest ih =>
    simp only [resource_target_loop] at h
    split at h
    · simp at h
    · split at h
      · obtain ⟨h1, h2⟩ := ih _ h
        exact ⟨h1, h2⟩
      · simp at h

theorem execute_resource_action_round (env : Env) (target : ActionTarget)
    (ts : List Uuid) (resource : Resource) (value : Int) (rs : RoundState) (w : World)
    (rs' : RoundState)
    (h : execute_resource_action env target ts resource value rs w = Except.ok rs') :
    rs'.round = rs.round ∧ rs'.players_finished = rs.players_finished := by
  cases target with
  | EventTarget =>
    simp only [execute_resource_action] at h
    exact resource_target_loop_round env resource value w ts rs rs' h
  | AllPlayers =>
    simp only [execute_resource_action] at h
    split at h
    · simp at h
      subst h
      exact ⟨rfl, rfl⟩
    · simp at h

theorem execute_settings_change_round (env : Env) (rs : RoundState) (ns : Settings)
    (w : World) (rs' : RoundState) (w' : World)
    (h : execute_settings_change env rs ns w = Except.ok (rs', w')) :
    rs'.round = rs.round ∧ rs'.players_finished = rs.players_finished := by
  simp only [execute_settings_change] at h
  split at h
  · split at h
    · simp at h
      obtain ⟨h1, h2⟩ := h
      subst h1
      exact ⟨rfl, rfl⟩
    · simp at h
  · simp at h

theorem run_actions_round (env : Env) (targets : List Uuid) (acts : List EventAction)
    (rs : RoundState) (w : World) (rs' : RoundState) (w' : World)
    (h : run_actions env targets acts rs w = Except.ok (rs', w')) :
    rs'.round = rs.round ∧ rs'.players_finished = rs.players_finished := by
  induction acts generalizing rs w with
  | nil =>
    simp [run_actions] at h
    obtain ⟨h1, h2⟩ := h
    subst h1
    exact ⟨rfl, rfl⟩
  | cons a rest ih =>
    cases a with
    | ShowMessage message target =>
      simp only [run_actions] at h
      split at h
      · obtain ⟨h1, h2⟩ := ih _ _ h
        exact ⟨h1, h2⟩
      · simp at h
    | ChangeSettings ns =>
      simp only [run_actions] at h
      split at h
      · rename_i rs1 w1 heq
        obtain ⟨h1, h2⟩ := execute_settings_change_round _ _ _ _ _ _ heq
        obtain ⟨h1', h2'⟩ := ih _ _ h
        exact ⟨h1'.trans h1, h2'.trans h2⟩
      · simp at h
    | AddResource resource target value =>
      simp only [run_actions] at h
      split at h
      · rename_i rs1 heq
        obtain ⟨h1, h2⟩ := execute_resource_action_round _ _ _ _ _ _ _ _ heq
        obtain ⟨h1', h2'⟩ := ih _ _ h
        exact ⟨h1'.trans h1, h2'.trans h2⟩
      · simp at h

theorem events_loop_round (env : Env) (evs : List GameEvent) (rs : RoundState) (w : World)
    (rs' : RoundState) (w' : World)
    (h : events_loop env evs rs w = Except.ok (rs', w')) :
    rs'.round = rs.round ∧ rs'.players_finished = rs.players_finished := by
  induction evs generalizing rs w with
  | nil =>
    simp [events_loop] at h
    obtain ⟨h1, h2⟩ := h
    subst h1
    exact ⟨rfl, rfl⟩
  | cons e rest ih =>
    simp only [events_loop] at h
    split at h
    · simp at h
    · split at h
      · split at h
        · rename_i rs1 w1 heq2
          obtain ⟨h1, h2⟩ := run_actions_round _ _ _ _ _ _ _ heq2
          obtain ⟨h1', h2'⟩ := ih _ _ h
          exact ⟨h1'.trans h1, h2'.trans h2⟩
        · simp at h
      · obtain ⟨h1, h2⟩ := ih _ _ h
        exact ⟨h1, h2⟩

/-- A successful `new_round` leaves the registry holding the same round
counter, a reset finished counter and cleared order maps. -/
theorem new_round_ok_shape (env : Env) (rs : RoundState) (w : World) (w' : World)
    (h : new_round env rs w = GRes.ok w') :
    ∃ st : LobbyState, w'.lobbyState = some st ∧ st.round_state.round = rs.round ∧
      st.round_state.players_finished = 0 ∧ st.round_state.round_orders = [] ∧
      st.round_state.send_orders = [] := by
  simp only [new_round, process_game_events] at h
  split at h
  · simp at h
  · rename_i rs1 w1 heq
    obtain ⟨hr, _⟩ := events_loop_round _ _ _ _ _ _ heq
    split at h
    · rename_i lobby_state heq2
      split at h
      · simp only [GRes.ok.injEq] at h
        subst h
        refine ⟨_, rfl, ?_, rfl, rfl, rfl⟩
        simpa using hr
      · simp at h
    · simp at h

/-- A successful `finish_round` whose new round is not `max_rounds` leaves
the registry holding round + 1, a reset finished counter and cleared order
maps. -/
theorem finish_round_ok_shape (env : Env) (rs : RoundState) (w : World) (w' : World)
    (h : finish_round env rs w = GRes.ok w')
    (hmr : w.db.lobby.settings.max_rounds ≠ rs.round + 1) :
    ∃ st : LobbyState, w'.lobbyState = some st ∧ st.round_state.round = rs.round + 1 ∧
      st.round_state.players_finished = 0 ∧ st.round_state.round_orders = [] ∧
      st.round_state.send_orders = [] := by
  simp only [finish_round] at h
  split at h
  · simp at h
  · split at h
    · simp at h
    · split at h
      · simp at h
      · rename_i us1 heq1
        split at h
        · simp at h
        · rename_i us2 heq2
          split at h
          · simp at h
          · rename_i lobby_state heq3
            split at h
            · split at h
              · rename_i hins hmax
                exact absurd hmax.symm hmr
              · obtain ⟨st, h1, h2, h3, h4, h5⟩ := new_round_ok_shape _ _ _ _ h
                exact ⟨st, h1, h2, h3, h4, h5⟩
            · simp at h

theorem send_broadcast_msg_error_shape (env : Env) (w : World) (m : EventMessages)
    (e : AppError) (h : send_broadcast_msg env w m = Except.error e) :
    ∃ s, e = AppError.InternalServerError s := by
  simp only [send_broadcast_msg] at h
  split at h
  · split at h
    · simp at h
    · simp only [Except.error.injEq] at h
      exact ⟨_, h.symm⟩
  · simp only [Except.error.injEq] at h
    exact ⟨_, h.symm⟩

theorem push_requested_loop_error_shape (l : List (Uuid × Order)) (us : SMap UserState)
    (e : AppError) (h : push_requested_loop l us = Except.error e) :
    ∃ s, e = AppError.InternalServerError s := by
  induction l generalizing us with
  | nil => simp [push_requested_loop] at h
  | cons p rest ih =>
    simp only [push_requested_loop] at h
    split at h
    · exact ih _ h
    · split at h
      · exact ih _ h
      · simp only [Except.error.injEq] at h
        exact ⟨_, h.symm⟩

theorem push_incoming_loop_error_shape (l : List (Uuid × Order)) (us : SMap UserState)
    (e : AppError) (h : push_incoming_loop l us = Except.error e) :
    ∃ s, e = AppError.InternalServerError s := by
  induction l generalizing us with
  | nil => simp [push_incoming_loop] at h
  | cons p rest ih =>
    simp only [push_incoming_loop] at h
    split at h
    · exact ih _ h
    · split at h
      · exact ih _ h
      · simp only [Except.error.injEq] at h
        exact ⟨_, h.symm⟩

/-- When the snapshot insert is the failure, the error world still carries
the already-advanced registry, and nothing was appended to the store. -/
theorem finish_round_insert_fail (env : Env) (rs : RoundState) (w : World)
    (s : String) (w' : World)
    (hins : env.insertOk = false)
    (h : finish_round env rs w = GRes.err (.DbErr s) w') :
    ∃ st : LobbyState, w'.lobbyState = some st ∧ st.round_state.round = rs.round + 1 ∧
      w'.db.rows = w.db.rows := by
  simp only [finish_round] at h
  split at h
  · rename_i e0 heq
    obtain ⟨s', hs⟩ := send_broadcast_msg_error_shape _ _ _ _ heq
    simp [hs] at h
  · split at h
    · simp at h
    · split at h
      · rename_i e0 heq
        obtain ⟨s', hs⟩ := push_requested_loop_error_shape _ _ _ heq
        simp [hs] at h
      · rename_i us1 heq1
        split at h
        · rename_i e0 heq
          obtain ⟨s', hs⟩ := push_incoming_loop_error_shape _ _ _ heq
          simp [hs] at h
        · rename_i us2 heq2
          split at h
          · simp at h
          · rename_i lobby_state heq3
            split at h
            · rename_i hins'
              rw [hins] at hins'
              simp at hins'
            · simp only [GRes.err.injEq] at h
              obtain ⟨_, h2⟩ := h
              subst h2
              exact ⟨_, rfl, rfl, rfl⟩

end Inz

namespace Inz

/-- C1: corrected.  The claim says a failed snapshot insert leaves the
registry's round counter at its pre-call value.  In the code the registry
write (game.rs line 603) precedes the insert (line 614), so when the
insert is the failure the operation does return an error, but the
registry already holds `rs.round + 1`; nothing was appended durably. -/
theorem C1_failed_insert_registry_already_advanced (env : Env) (rs : RoundState) (w : World)
    (hins : env.insertOk = false)
    (hdb : GRes.isDbErr (finish_round env rs w) = true) :
    GRes.isOk (finish_round env rs w) = false ∧
    (registryState (GRes.world (finish_round env rs w))).map RoundState.round
      = some (rs.round + 1) ∧
    (GRes.world (finish_round env rs w)).db.rows = w.db.rows := by
  cases hres : finish_round env rs w with
  | ok w' => rw [hres] at hdb; simp [GRes.isDbErr] at hdb
  | err e w' =>
    rw [hres] at hdb
    cases e with
    | DbErr s =>
      obtain ⟨st, h1, h2, h3⟩ := finish_round_insert_fail env rs w s w' hins hres
      refine ⟨rfl, ?_, h3⟩
      simp [GRes.world, registryState, h1, h2]
    | InternalServerError s => simp [GRes.isDbErr] at hdb
    | BadRequest s => simp [GRes.isDbErr] at hdb
    | BadOrder s => simp [GRes.isDbErr] at hdb

/-- C1 witness: a concrete one-player round finish whose insert fails. -/
theorem C1_witness :
    envNoInsert.insertOk = false ∧
    GRes.isDbErr (finish_round envNoInsert rsFin worldA) = true ∧
    (GRes.isOk (finish_round envNoInsert rsFin worldA) = false ∧
     (registryState (GRes.world (finish_round envNoInsert rsFin worldA))).map RoundState.round
        = some (rsFin.round + 1) ∧
     (GRes.world (finish_round envNoInsert rsFin worldA)).db.rows = worldA.db.rows) :=
  ⟨rfl, rfl, C1_failed_insert_registry_already_advanced envNoInsert rsFin worldA rfl rfl⟩

/-- C1 counterexample: a full concrete submission with a failing insert
returns an error, yet the registry round counter reads 1 where it read 0
before the call — the claim's "not advanced past what was durably
written" is false on the code. -/
theorem C1_counterexample :
    GRes.isOk (process_user_round_end_message envNoInsert 1 msgA worldA) = false ∧
    (registryState worldA).map RoundState.round = some 0 ∧
    (registryState (GRes.world (process_user_round_end_message envNoInsert 1 msgA worldA))).map
      RoundState.round = some 1 ∧
    (1 : Int) ≠ 0 :=
  ⟨rfl, rfl, rfl, by decide⟩

/-- C2: corrected.  For non-negative inputs the settlement keeps the new
magazine and backorder non-negative, and the backorder debt drained from
the magazine (the min of the two) is shipped; but the fresh request is
shipped in full only when the remaining magazine strictly exceeds it —
otherwise only the shortfall `requested - remaining` is added to the
shipment and the remaining magazine is zeroed without being shipped, so
`send_value` is not `requested + drained` in general. -/
theorem C2_backorder_settlement_piecewise (magazine back req : Int)
    (_hm : 0 ≤ magazine) (hb : 0 ≤ back) (hr : 0 ≤ req) :
    0 ≤ (backorder_settlement magazine back req).2.1 ∧
    0 ≤ (backorder_settlement magazine back req).2.2 ∧
    (backorder_settlement magazine back req).1 =
      min back magazine +
        (if magazine - min back magazine > req then req
         else req - (magazine - min back magazine)) := by
  simp only [backorder_settlement]
  rcases le_or_lt back magazine with hle | hlt
  · rw [min_eq_left hle]
    split_ifs <;> dsimp only <;> refine ⟨?_, ?_, ?_⟩ <;> omega
  · rw [min_eq_right (le_of_lt hlt)]
    split_ifs <;> dsimp only <;> refine ⟨?_, ?_, ?_⟩ <;> omega

/-- C2 witness: settlement at `(magazine, backorder, requested) = (3, 2, 5)`. -/
theorem C2_witness :
    (0 : Int) ≤ 3 ∧ (0 : Int) ≤ 2 ∧ (0 : Int) ≤ 5 ∧
    (0 ≤ (backorder_settlement 3 2 5).2.1 ∧
     0 ≤ (backorder_settlement 3 2 5).2.2 ∧
     (backorder_settlement 3 2 5).1 =
       min 2 3 + (if (3 : Int) - min 2 3 > 5 then 5 else 5 - (3 - min 2 3))) :=
  ⟨by decide, by decide, by decide,
   C2_backorder_settlement_piecewise 3 2 5 (by decide) (by decide) (by decide)⟩

/-- C2 counterexample: with magazine 3, no backorder and request 5, the
shipped value is 2 (the shortfall only), not the full request 5 plus the
drained debt 0 as the claim states. -/
theorem C2_counterexample :
    backorder_settlement 3 0 5 = (2, 0, 2) ∧
    (backorder_settlement 3 0 5).1 ≠ 5 + min (0 : Int) 3 := by
  constructor
  · decide
  · decide

/-- C3: confirmed.  A successful submission that does not complete the
round leaves the registry round counter unchanged and raises the finished
counter by exactly one, still below the player count; the round's last
successful submission (when the new round is not `max_rounds`, i.e. a
round transition rather than game end) leaves the registry holding
round + 1, finished counter 0, and cleared received/sent order maps. -/
theorem C3_round_completion
    (env : Env) (player : Uuid) (msg : UserEndRound) (w : World) (lb : LobbyState)
    (cls : Nat) (price fix mcost : Int) (us : UserState)
    (ios : List Order) (io : Order) (ros : List Order) (ro : Order) (recip : Uuid)
    (hlb : w.lobbyState = some lb)
    (hcls : SMap.find? lb.round_state.player_classes player = some cls)
    (hprice : SMap.find? lb.round_state.settings.resource_price cls = some price)
    (hfix : SMap.find? lb.round_state.settings.fix_order_cost cls = some fix)
    (hmcost : SMap.find? lb.round_state.settings.magazine_cost cls = some mcost)
    (hus : SMap.find? lb.round_state.users_states player = some us)
    (hmoney : ¬ msg.placed_order.cost > us.money)
    (hbc : env.broadcastOk = true)
    (hio : us.incoming_orders = ios ++ [io])
    (hro : us.requested_orders = ros ++ [ro])
    (hrecip : SMap.find? lb.round_state.flow.flow player = some recip) :
    (lb.round_state.players_finished + 1 < lb.round_state.players →
      process_user_round_end_message env player msg w =
        GRes.ok ⟨some ⟨lb.started,
          submissionResultState lb player msg price fix mcost us ios io ros ro recip⟩, w.db⟩ ∧
      (submissionResultState lb player msg price fix mcost us ios io ros ro recip).round
        = lb.round_state.round ∧
      (submissionResultState lb player msg price fix mcost us ios io ros ro recip).players_finished
        = lb.round_state.players_finished + 1 ∧
      (submissionResultState lb player msg price fix mcost us ios io ros ro recip).players_finished
        < lb.round_state.players) ∧
    (∀ w', lb.round_state.players_finished + 1 = lb.round_state.players →
      w.db.lobby.settings.max_rounds ≠ lb.round_state.round + 1 →
      process_user_round_end_message env player msg w = GRes.ok w' →
      (registryState w').map RoundState.round = some (lb.round_state.round + 1) ∧
      (registryState w').map RoundState.players_finished = some 0 ∧
      (registryState w').map RoundState.round_orders = some [] ∧
      (registryState w').map RoundState.send_orders = some []) := by
  constructor
  · intro hlt
    have hnf : ¬ (lb.round_state.players_finished + 1 = lb.round_state.players) := by omega
    refine ⟨process_ok_of_happy env player msg w lb cls price fix mcost us ios io ros ro recip
      hlb hcls hprice hfix hmcost hus hmoney hbc hio hro hrecip hnf, rfl, rfl, ?_⟩
    exact hlt
  · intro w' hlast hmr hok
    have heq := process_last_of_happy env player msg w lb cls price fix mcost us ios io ros ro
      recip hlb hcls hprice hfix hmcost hus hmoney hbc hio hro hrecip hlast
    rw [heq] at hok
    obtain ⟨st, h1, h2, h3, h4, h5⟩ := finish_round_ok_shape env
      (submissionResultState lb player msg price fix mcost us ios io ros ro recip)
      ⟨some ⟨lb.started,
        submissionResultState lb player msg price fix mcost us ios io ros ro recip⟩, w.db⟩
      w' hok hmr
    simp [registryState, h1, h2, h3, h4, h5]
    rfl

/-- C3 witness: the single player of `worldA` submits, completing round 0;
afterwards the registry holds round 1, counter 0 and empty maps. -/
theorem C3_witness :
    worldA.lobbyState = some ⟨true, rsA⟩ ∧ rsA.players_finished + 1 = rsA.players ∧
    ((registryState (GRes.world (process_user_round_end_message envAll 1 msgA worldA))).map
        RoundState.round = some (rsA.round + 1) ∧
     (registryState (GRes.world (process_user_round_end_message envAll 1 msgA worldA))).map
        RoundState.players_finished = some 0 ∧
     (registryState (GRes.world (process_user_round_end_message envAll 1 msgA worldA))).map
        RoundState.round_orders = some [] ∧
     (registryState (GRes.world (process_user_round_end_message envAll 1 msgA worldA))).map
        RoundState.send_orders = some []) := by
  refine ⟨rfl, rfl, ?_⟩
  exact (C3_round_completion envAll 1 msgA worldA ⟨true, rsA⟩ 0 3 7 1 usA [] ioA [] roA 0
    rfl rfl rfl rfl rfl rfl (by decide) rfl rfl rfl rfl).2
    (GRes.world (process_user_round_end_message envAll 1 msgA worldA)) rfl (by decide) rfl

end Inz

namespace Inz

/-- C4: corrected.  The claim says the oldest pending incoming and
requested orders are consumed; the source uses `Vec::pop`, which removes
the most recently queued entry (`vecPush` appends at the back), so a
successful submission consumes the *newest* pending incoming order
(credited and recorded as most recently received) and settles against the
*newest* pending requested order, leaving the older entries queued. -/
theorem C4_pops_newest
    (env : Env) (player : Uuid) (msg : UserEndRound) (w : World) (lb : LobbyState)
    (cls : Nat) (price fix mcost : Int) (us : UserState)
    (ios : List Order) (io : Order) (ros : List Order) (ro : Order) (recip : Uuid)
    (hlb : w.lobbyState = some lb)
    (hcls : SMap.find? lb.round_state.player_classes player = some cls)
    (hprice : SMap.find? lb.round_state.settings.resource_price cls = some price)
    (hfix : SMap.find? lb.round_state.settings.fix_order_cost cls = some fix)
    (hmcost : SMap.find? lb.round_state.settings.magazine_cost cls = some mcost)
    (hus : SMap.find? lb.round_state.users_states player = some us)
    (hmoney : ¬ msg.placed_order.cost > us.money)
    (hbc : env.broadcastOk = true)
    (hio : us.incoming_orders = ios ++ [io])
    (hro : us.requested_orders = ros ++ [ro])
    (hrecip : SMap.find? lb.round_state.flow.flow player = some recip)
    (hnf : ¬ (lb.round_state.players_finished + 1 = lb.round_state.players)) :
    GRes.isOk (process_user_round_end_message env player msg w) = true ∧
    ((registryState (GRes.world (process_user_round_end_message env player msg w))).bind
        (fun rs => SMap.find? rs.users_states player)).map UserState.received_order = some io ∧
    ((registryState (GRes.world (process_user_round_end_message env player msg w))).bind
        (fun rs => SMap.find? rs.users_states player)).map UserState.incoming_orders = some ios ∧
    ((registryState (GRes.world (process_user_round_end_message env player msg w))).bind
        (fun rs => SMap.find? rs.users_states player)).map UserState.requested_orders = some ros ∧
    ((registryState (GRes.world (process_user_round_end_message env player msg w))).bind
        (fun rs => SMap.find? rs.send_orders player)).map Order.value =
      some ((backorder_settlement (us.magazine_state + io.value) us.back_order_sum ro.value).1) := by
  rw [process_ok_of_happy env player msg w lb cls price fix mcost us ios io ros ro recip
    hlb hcls hprice hfix hmcost hus hmoney hbc hio hro hrecip hnf]
  refine ⟨rfl, ?_, ?_, ?_, ?_⟩ <;>
    simp [GRes.world, registryState, submissionResultState, SMap.find?_insert_self]

/-- C4 witness: player 1 of `worldB` holds queues `[ioA, ioB]` and
`[roA, roB]`; the submission consumes `ioB` and `roB`. -/
theorem C4_witness :
    usB1.incoming_orders = [ioA] ++ [ioB] ∧ usB1.requested_orders = [roA] ++ [roB] ∧
    (GRes.isOk (process_user_round_end_message envAll 1 msgA worldB) = true ∧
     ((registryState (GRes.world (process_user_round_end_message envAll 1 msgA worldB))).bind
        (fun rs => SMap.find? rs.users_states 1)).map UserState.received_order = some ioB ∧
     ((registryState (GRes.world (process_user_round_end_message envAll 1 msgA worldB))).bind
        (fun rs => SMap.find? rs.users_states 1)).map UserState.incoming_orders = some [ioA] ∧
     ((registryState (GRes.world (process_user_round_end_message envAll 1 msgA worldB))).bind
        (fun rs => SMap.find? rs.users_states 1)).map UserState.requested_orders = some [roA] ∧
     ((registryState (GRes.world (process_user_round_end_message envAll 1 msgA worldB))).bind
        (fun rs => SMap.find? rs.send_orders 1)).map Order.value =
       some ((backorder_settlement (usB1.magazine_state + ioB.value) usB1.back_order_sum
         roB.value).1)) :=
  ⟨rfl, rfl, C4_pops_newest envAll 1 msgA worldB ⟨true, rsB⟩ 0 3 7 1 usB1 [ioA] ioB [roA] roB 2
    rfl rfl rfl rfl rfl rfl (by decide) rfl rfl rfl rfl (by decide)⟩

/-- C4 counterexample: with two queued entries each, the order credited as
received is `ioB`, the later-queued one, not the oldest `ioA`; and the
requested queue retains its *older* entry `[roA]`, showing the fulfilled
requested order was the newest `roB`. -/
theorem C4_counterexample :
    ((registryState (GRes.world (process_user_round_end_message envAll 1 msgA worldB))).bind
        (fun rs => SMap.find? rs.users_states 1)).map UserState.received_order = some ioB ∧
    ((registryState (GRes.world (process_user_round_end_message envAll 1 msgA worldB))).bind
        (fun rs => SMap.find? rs.users_states 1)).map UserState.requested_orders = some [roA] ∧
    ioB ≠ ioA ∧ ([roA] : List Order) ≠ [roB] :=
  ⟨rfl, rfl, by decide, by decide⟩

theorem position_eq_some_of_mem (l : List Int) (a : Int) (h : a ∈ l) :
    ∃ i, position (fun r => r == a) l = some i ∧ l[i]? = some a := by
  induction l with
  | nil => simp at h
  | cons x xs ih =>
    by_cases hx : x = a
    · exact ⟨0, by simp [position, hx], by simp [hx]⟩
    · have hmem : a ∈ xs := by
        rcases List.mem_cons.mp h with h1 | h1
        · exact absurd h1.symm hx
        · exact h1
      obtain ⟨i, h1, h2⟩ := ih hmem
      refine ⟨i + 1, ?_, by simpa using h2⟩
      simp [position, hx, h1]

theorem position_eq_none_of_not_mem (l : List Int) (a : Int) (h : a ∉ l) :
    position (fun r => r == a) l = none := by
  induction l with
  | nil => rfl
  | cons x xs ih =>
    have hx : ¬ x = a := fun hh => h (hh ▸ List.mem_cons_self x xs)
    have hxs : a ∉ xs := fun hh => h (List.mem_cons_of_mem _ hh)
    simp [position, hx, ih hxs]

theorem getElem?_length_sub_one (l : List Int) (h : l ≠ []) :
    l[l.length - 1]? = some (l.getLast h) := by
  induction l with
  | nil => exact absurd rfl h
  | cons x xs ih =>
    cases xs with
    | nil => simp [List.getLast]
    | cons y ys =>
      have h2 : (y :: ys) ≠ [] := by simp
      have h3 := ih h2
      simp only [List.length_cons, Nat.add_sub_cancel] at h3 ⊢
      rw [List.getLast_cons h2]
      simpa using h3

/-- C5: corrected.  The claim says a found previous value yields the *next*
list element (`generate_next(5) = 10` for `[5,10,15]`).  The source takes
the element *at* the found index (`Some(i) => i`, not `i + 1`), so a found
value is returned unchanged; only the absent case saturates to the last
element, and a value found at the tail trivially returns the tail. -/
theorem C5_list_saturates :
    (∀ (l : List Int) (prev : Int), prev ∈ l →
      generate_demand prev (GeneratedOrderStyle.List l) = prev) ∧
    (∀ (l : List Int) (prev : Int) (h : l ≠ []), prev ∉ l →
      generate_demand prev (GeneratedOrderStyle.List l) = l.getLast h) := by
  constructor
  · intro l prev hmem
    obtain ⟨i, h1, h2⟩ := position_eq_some_of_mem l prev hmem
    simp [generate_demand, h1, h2]
  · intro l prev h hnm
    simp [generate_demand, position_eq_none_of_not_mem l prev hnm, getElem?_length_sub_one l h]

/-- C5 witness: `List [5,10,15]` returns 10 for previous 10 (the found
element itself) and 15 for the absent 99. -/
theorem C5_witness :
    (10 : Int) ∈ ([5, 10, 15] : List Int) ∧
    generate_demand 10 (GeneratedOrderStyle.List [5, 10, 15]) = 10 ∧
    ([5, 10, 15] : List Int) ≠ [] ∧ (99 : Int) ∉ ([5, 10, 15] : List Int) ∧
    generate_demand 99 (GeneratedOrderStyle.List [5, 10, 15]) =
      ([5, 10, 15] : List Int).getLast (by decide) :=
  ⟨by decide, C5_list_saturates.1 [5, 10, 15] 10 (by decide), by decide, by decide,
   C5_list_saturates.2 [5, 10, 15] 99 (by decide) (by decide)⟩

/-- C5 counterexample: `generate_demand 5 (List [5,10,15])` is 5, not the
10 the claim requires. -/
theorem C5_counterexample :
    generate_demand 5 (GeneratedOrderStyle.List [5, 10, 15]) = 5 ∧ (5 : Int) ≠ 10 :=
  ⟨by decide, by decide⟩

/-- C6: confirmed.  A player whose money is strictly below the placed
order's cost gets the specific `BadOrder` rejection and the returned world
is the input world: registry (hence every ledger field, queue and order
map) and database are untouched. -/
theorem C6_insufficient_money_rejected
    (env : Env) (player : Uuid) (msg : UserEndRound) (w : World) (lb : LobbyState)
    (cls : Nat) (price fix mcost : Int) (us : UserState)
    (hlb : w.lobbyState = some lb)
    (hcls : SMap.find? lb.round_state.player_classes player = some cls)
    (hprice : SMap.find? lb.round_state.settings.resource_price cls = some price)
    (hfix : SMap.find? lb.round_state.settings.fix_order_cost cls = some fix)
    (hmcost : SMap.find? lb.round_state.settings.magazine_cost cls = some mcost)
    (hus : SMap.find? lb.round_state.users_states player = some us)
    (hmoney : us.money < msg.placed_order.cost) :
    process_user_round_end_message env player msg w =
      GRes.err (.BadOrder "not enough money for placed order") w := by
  simp only [process_user_round_end_message, hlb, hcls, hprice, hfix, hmcost, hus]
  rw [if_pos]
  exact hmoney

/-- C6 witness: a 101-cost order against 100 money is rejected with the
world unchanged. -/
theorem C6_witness :
    usA.money < msgPoor.placed_order.cost ∧
    process_user_round_end_message envAll 1 msgPoor worldA =
      GRes.err (.BadOrder "not enough money for placed order") worldA :=
  ⟨by decide, C6_insufficient_money_rejected envAll 1 msgPoor worldA ⟨true, rsA⟩ 0 3 7 1 usA
    rfl rfl rfl rfl rfl rfl (by decide)⟩

/-- C7: corrected.  The claim says broadcast failures are only logged and
never fail the mutating operation.  In the code `send_broadcast_msg` maps
a channel-send failure to `InternalServerError` and every caller
propagates it with `?`, so the operation fails; in the submission path the
`Ack` broadcast precedes every round-state mutation, so a failed broadcast
there prevents the mutation entirely (the world is returned unchanged)
rather than committing it. -/
theorem C7_broadcast_failure_fails_operation
    (env : Env) (player : Uuid) (msg : UserEndRound) (w : World) (lb : LobbyState)
    (cls : Nat) (price fix mcost : Int) (us : UserState)
    (hlb : w.lobbyState = some lb)
    (hcls : SMap.find? lb.round_state.player_classes player = some cls)
    (hprice : SMap.find? lb.round_state.settings.resource_price cls = some price)
    (hfix : SMap.find? lb.round_state.settings.fix_order_cost cls = some fix)
    (hmcost : SMap.find? lb.round_state.settings.magazine_cost cls = some mcost)
    (hus : SMap.find? lb.round_state.users_states player = some us)
    (hmoney : ¬ msg.placed_order.cost > us.money)
    (hbc : env.broadcastOk = false) :
    process_user_round_end_message env player msg w =
      GRes.err (.InternalServerError "channel send failed") w := by
  simp only [process_user_round_end_message, hlb, hcls, hprice, hfix, hmcost, hus,
    send_broadcast_msg, hbc, if_neg hmoney]
  simp

/-- C7 witness: the submission against a closed channel fails with the
propagated internal error and an unchanged world. -/
theorem C7_witness :
    envNoBroadcast.broadcastOk = false ∧ ¬ msgA.placed_order.cost > usA.money ∧
    process_user_round_end_message envNoBroadcast 1 msgA worldA =
      GRes.err (.InternalServerError "channel send failed") worldA :=
  ⟨rfl, by decide, C7_broadcast_failure_fails_operation envNoBroadcast 1 msgA worldA
    ⟨true, rsA⟩ 0 3 7 1 usA rfl rfl rfl rfl rfl rfl (by decide) rfl⟩

/-- C7 counterexample: at a concrete input a broadcast failure makes the
operation itself fail (it is not merely logged), refuting the claim. -/
theorem C7_counterexample :
    process_user_round_end_message envNoBroadcast 1 msgA worldA =
      GRes.err (.InternalServerError "channel send failed") worldA ∧
    GRes.isOk (process_user_round_end_message envNoBroadcast 1 msgA worldA) = false :=
  ⟨rfl, rfl⟩

end Inz

namespace Inz

/-- C8: corrected.  The claim says a zero-value order costs 0 (no fixed
cost).  The source computes the outgoing shipment's cost at game.rs line
177 as `value * resource_price + fix_order_cost` unconditionally, so a
zero-value shipment still carries the class fixed order cost; the
registry's recorded send order is exactly that order. -/
theorem C8_send_cost_always_includes_fixed
    (env : Env) (player : Uuid) (msg : UserEndRound) (w : World) (lb : LobbyState)
    (cls : Nat) (price fix mcost : Int) (us : UserState)
    (ios : List Order) (io : Order) (ros : List Order) (ro : Order) (recip : Uuid)
    (hlb : w.lobbyState = some lb)
    (hcls : SMap.find? lb.round_state.player_classes player = some cls)
    (hprice : SMap.find? lb.round_state.settings.resource_price cls = some price)
    (hfix : SMap.find? lb.round_state.settings.fix_order_cost cls = some fix)
    (hmcost : SMap.find? lb.round_state.settings.magazine_cost cls = some mcost)
    (hus : SMap.find? lb.round_state.users_states player = some us)
    (hmoney : ¬ msg.placed_order.cost > us.money)
    (hbc : env.broadcastOk = true)
    (hio : us.incoming_orders = ios ++ [io])
    (hro : us.requested_orders = ros ++ [ro])
    (hrecip : SMap.find? lb.round_state.flow.flow player = some recip)
    (hnf : ¬ (lb.round_state.players_finished + 1 = lb.round_state.players)) :
    ((registryState (GRes.world (process_user_round_end_message env player msg w))).bind
        (fun rs => SMap.find? rs.send_orders player)) =
      some ⟨recip, player,
        (backorder_settlement (us.magazine_state + io.value) us.back_order_sum ro.value).1,
        (backorder_settlement (us.magazine_state + io.value) us.back_order_sum ro.value).1
          * price + fix⟩ := by
  rw [process_ok_of_happy env player msg w lb cls price fix mcost us ios io ros ro recip
    hlb hcls hprice hfix hmcost hus hmoney hbc hio hro hrecip hnf]
  simp [GRes.world, registryState, submissionResultState, SMap.find?_insert_self]

/-- C8 witness: in `worldC` the settlement ships 0 yet the recorded cost is
`0 * 3 + 7`. -/
theorem C8_witness :
    ((registryState (GRes.world (process_user_round_end_message envAll 1 msgA worldC))).bind
        (fun rs => SMap.find? rs.send_orders 1)) =
      some ⟨0, 1,
        (backorder_settlement (usC.magazine_state + (0 : Int)) usC.back_order_sum (5 : Int)).1,
        (backorder_settlement (usC.magazine_state + (0 : Int)) usC.back_order_sum (5 : Int)).1
          * 3 + 7⟩ :=
  C8_send_cost_always_includes_fixed envAll 1 msgA worldC ⟨true, rsC⟩ 0 3 7 1 usC
    [] ⟨1, 0, 0, 0⟩ [] ⟨0, 1, 5, 10⟩ 0
    rfl rfl rfl rfl rfl rfl (by decide) rfl rfl rfl rfl (by decide)

/-- C8 counterexample: a concrete submission ships value 0 with recorded
cost 7, whereas the claim's `order_cost` (declared from the spec's words)
gives 0 for a zero-value order. -/
theorem C8_counterexample :
    ((registryState (GRes.world (process_user_round_end_message envAll 1 msgA worldC))).bind
        (fun rs => SMap.find? rs.send_orders 1)) = some ⟨0, 1, 0, 7⟩ ∧
    order_cost_spec 0 3 7 = 0 ∧ (7 : Int) ≠ 0 :=
  ⟨rfl, by decide, by decide⟩

theorem all_players_loop_spec (extractor : UserState → Int) (value : Int)
    (entries : List (Uuid × UserState)) (acc : List Uuid) :
    ((all_players_loop extractor value entries acc).1 = true ↔
      ∀ p ∈ entries, value ≤ extractor p.2) ∧
    ((all_players_loop extractor value entries acc).1 = true →
      (all_players_loop extractor value entries acc).2 = acc ++ entries.map Prod.fst) := by
  induction entries generalizing acc with
  | nil => simp [all_players_loop]
  | cons p rest ih =>
    obtain ⟨u, us⟩ := p
    by_cases hlt : extractor us < value
    · simp only [all_players_loop, if_pos hlt]
      constructor
      · constructor
        · intro hfalse
          exact absurd hfalse (by simp)
        · intro hall
          exact absurd (hall (u, us) (List.mem_cons_self _ _)) (not_le.mpr hlt)
      · intro hfalse
        exact absurd hfalse (by simp)
    · have hle : value ≤ extractor us := not_lt.mp hlt
      simp only [all_players_loop, if_neg hlt]
      constructor
      · rw [(ih (vecPush acc u)).1]
        constructor
        · intro hall q hq
          rcases List.mem_cons.mp hq with h1 | h1
          · subst h1
            exact hle
          · exact hall q h1
        · intro hall q hq
          exact hall q (List.mem_cons_of_mem _ hq)
      · intro htrue
        rw [(ih (vecPush acc u)).2 htrue]
        simp [vecPush]

/-- C9: confirmed.  The `AllPlayers` `ValueExceed` condition is true
exactly when every tracked player's extracted value meets or exceeds the
threshold, and in that case the returned target list is the full player
key list; when some player falls short the condition is false (the loop
stops there, leaving the accumulated prefix as targets). -/
theorem C9_value_exceed_all_players (extractor : UserState → Int)
    (round_state : RoundState) (value : Int) :
    ((evaluate_value_exceed extractor MetBy.AllPlayers round_state value).1 = true ↔
      ∀ p ∈ round_state.users_states, value ≤ extractor p.2) ∧
    ((evaluate_value_exceed extractor MetBy.AllPlayers round_state value).1 = true →
      (evaluate_value_exceed extractor MetBy.AllPlayers round_state value).2 =
        SMap.keys round_state.users_states) := by
  have h := all_players_loop_spec extractor value round_state.users_states []
  simpa [evaluate_value_exceed, SMap.keys] using h

/-- C9 witness: money `[100, 100, 50]` against threshold 60 is false with
the incomplete target list `[1, 2]`; `[100, 100, 100]` is true with all
three players as targets. -/
theorem C9_witness :
    ((evaluate_value_exceed (fun us => us.money) MetBy.AllPlayers rsNineLow 60).1 = false ∧
     (evaluate_value_exceed (fun us => us.money) MetBy.AllPlayers rsNineLow 60).2 = [1, 2] ∧
     (evaluate_value_exceed (fun us => us.money) MetBy.AllPlayers rsNineLow 60).2 ≠
       SMap.keys rsNineLow.users_states) ∧
    ((evaluate_value_exceed (fun us => us.money) MetBy.AllPlayers rsNineHigh 60).1 = true ∧
     (evaluate_value_exceed (fun us => us.money) MetBy.AllPlayers rsNineHigh 60).2 =
       [1, 2, 3]) := by
  refine ⟨⟨by decide, by decide, by decide⟩, ?_, ?_⟩
  · exact (C9_value_exceed_all_players (fun us => us.money) rsNineHigh 60).1.mpr (by decide)
  · exact (C9_value_exceed_all_players (fun us => us.money) rsNineHigh 60).2
      ((C9_value_exceed_all_players (fun us => us.money) rsNineHigh 60).1.mpr (by decide))

/-- C10: confirmed.  When the placed order's cost fits the player's money
but cost plus the magazine holding debit (`magazine_state * magazine_cost`)
exceeds it, the submission is accepted (the affordability check covers the
order's cost only) and the player's committed money is strictly
negative. -/
theorem C10_holding_cost_overdraft
    (env : Env) (player : Uuid) (msg : UserEndRound) (w : World) (lb : LobbyState)
    (cls : Nat) (price fix mcost : Int) (us : UserState)
    (ios : List Order) (io : Order) (ros : List Order) (ro : Order) (recip : Uuid)
    (hlb : w.lobbyState = some lb)
    (hcls : SMap.find? lb.round_state.player_classes player = some cls)
    (hprice : SMap.find? lb.round_state.settings.resource_price cls = some price)
    (hfix : SMap.find? lb.round_state.settings.fix_order_cost cls = some fix)
    (hmcost : SMap.find? lb.round_state.settings.magazine_cost cls = some mcost)
    (hus : SMap.find? lb.round_state.users_states player = some us)
    (hbc : env.broadcastOk = true)
    (hio : us.incoming_orders = ios ++ [io])
    (hro : us.requested_orders = ros ++ [ro])
    (hrecip : SMap.find? lb.round_state.flow.flow player = some recip)
    (hnf : ¬ (lb.round_state.players_finished + 1 = lb.round_state.players))
    (hcost : msg.placed_order.cost ≤ us.money)
    (hover : us.money < msg.placed_order.cost + us.magazine_state * mcost) :
    GRes.isOk (process_user_round_end_message env player msg w) = true ∧
    ((registryState (GRes.world (process_user_round_end_message env player msg w))).bind
        (fun rs => SMap.find? rs.users_states player)).map UserState.money =
      some (us.money - msg.placed_order.cost - us.magazine_state * mcost) ∧
    us.money - msg.placed_order.cost - us.magazine_state * mcost < 0 := by
  have hmoney : ¬ msg.placed_order.cost > us.money := not_lt.mpr hcost
  rw [process_ok_of_happy env player msg w lb cls price fix mcost us ios io ros ro recip
    hlb hcls hprice hfix hmcost hus hmoney hbc hio hro hrecip hnf]
  refine ⟨rfl, ?_, by omega⟩
  simp [GRes.world, registryState, submissionResultState, SMap.find?_insert_self]

/-- C10 witness: 20 money, a 13-cost order and a 10 holding debit leave the
player at -3 after an accepted submission. -/
theorem C10_witness :
    msgA.placed_order.cost ≤ usD.money ∧
    usD.money < msgA.placed_order.cost + usD.magazine_state * 1 ∧
    (GRes.isOk (process_user_round_end_message envAll 1 msgA worldD) = true ∧
     ((registryState (GRes.world (process_user_round_end_message envAll 1 msgA worldD))).bind
        (fun rs => SMap.find? rs.users_states 1)).map UserState.money =
       some (usD.money - msgA.placed_order.cost - usD.magazine_state * 1) ∧
     usD.money - msgA.placed_order.cost - usD.magazine_state * 1 < 0) :=
  ⟨by decide, by decide,
   C10_holding_cost_overdraft envAll 1 msgA worldD ⟨true, rsD⟩ 0 3 7 1 usD [] ioA [] roA 0
     rfl rfl rfl rfl rfl rfl rfl rfl rfl rfl (by decide) (by decide) (by decide)⟩

end Inz
